import Mathlib

/-!
Verification development for the Zeek plugin core (`src/plugin/Plugin.h`).

The header defines the `HookArgument` tagged-union value type, the
`VersionNumber` and `Configuration` helper classes, the `BifItem` record and
the `Plugin` base class with its hook surface.  Pure in-header code (inline
constructors, accessors with `assert` tag checks) is embedded directly.  The
dispatcher (`plugin::Manager`) and the out-of-line `Plugin.cc` bodies are not
part of the tree, so those operations are modelled from the specification and
marked as such in their doc comments.

Modelling conventions:
  * C pointers (`Event*`, `Func*`, `Frame*`, `Val*`, `val_list*`, `void*`)
    are opaque addresses, wrapped in one structure per pointee type.
  * C `double` values are modelled by the rational number they denote
    (every finite IEEE754 binary64 value is rational); the `int -> double`
    conversion performed by `AsInt` is modelled by `roundIntToDouble`.
  * A failed `assert` (tag mismatch in an accessor) is a fault, modelled as
    the accessor returning `none`; a returned payload is `some v`.
-/

set_option autoImplicit false

namespace ZeekPlugin

/-- Hook types a plugin may define, mirroring `enum HookType` in `Plugin.h`
(`NUM_HOOKS` is the end marker of the C enum). -/
inductive HookType where
  | HOOK_LOAD_FILE
  | HOOK_CALL_FUNCTION
  | HOOK_QUEUE_EVENT
  | HOOK_DRAIN_EVENTS
  | HOOK_UPDATE_NETWORK_TIME
  | HOOK_BRO_OBJ_DTOR
  | META_HOOK_PRE
  | META_HOOK_POST
  | NUM_HOOKS
  deriving DecidableEq, Repr

/-- Mirror of `struct VersionNumber`: a major/minor pair, default constructed
with both components `-1`. -/
structure VersionNumber where
  major : ℤ
  minor : ℤ
  deriving DecidableEq, Repr

/-- The C++ default constructor `VersionNumber()`, which sets
`major = minor = -1`. -/
def defaultVersionNumber : VersionNumber := { major := -1, minor := -1 }

/-- Mirror of `VersionNumber::operator bool`, i.e.
`return major >= 0 && minor >= 0`. -/
def VersionNumber.toBool (v : VersionNumber) : Bool :=
  decide (0 ≤ v.major) && decide (0 ≤ v.minor)

/-- Mirror of the `BRO_PLUGIN_API_VERSION` macro default (`Plugin.h` line 17). -/
def BRO_PLUGIN_API_VERSION : ℤ := 3

/-- Mirror of `class Configuration`: public `name`, `description`, `version`
fields and the private `api_version` stamped by the constructor. -/
structure Configuration where
  name : String
  description : String
  version : VersionNumber
  api_version : ℤ
  deriving DecidableEq, Repr

/-- The inline C++ constructor `Configuration::Configuration()`: empty name
and description, default-constructed version, `api_version` stamped with the
compiling host's `BRO_PLUGIN_API_VERSION`. -/
def mkConfiguration : Configuration :=
  { name := ""
    description := ""
    version := defaultVersionNumber
    api_version := BRO_PLUGIN_API_VERSION }

/-- Assignment to the public `name` field (the only way client code touches
`name` after construction). -/
def Configuration.setName (c : Configuration) (s : String) : Configuration :=
  { c with name := s }

/-- Assignment to the public `description` field. -/
def Configuration.setDescription (c : Configuration) (s : String) : Configuration :=
  { c with description := s }

/-- Assignment to the public `version` field. -/
def Configuration.setVersion (c : Configuration) (v : VersionNumber) : Configuration :=
  { c with version := v }

/-- Mirror of `enum BifItem::Type { FUNCTION = 1, EVENT, CONSTANT, GLOBAL,
TYPE }`. -/
inductive BifItemType where
  | FUNCTION
  | EVENT
  | CONSTANT
  | GLOBAL
  | TYPE
  deriving DecidableEq, Repr

/-- Mirror of `class BifItem`: a fully qualified script-level id together
with its kind. -/
structure BifItem where
  id : String
  type : BifItemType
  deriving DecidableEq, Repr

/-- Modelled from the spec: the body of `Plugin::AddBifItem` lives in
`Plugin.cc`, which is not in the tree; per the spec the BiF-item list is
append-only (new items are appended to `bif_items`, `Plugin.h` line 731). -/
def addBifItem (l : List BifItem) (name : String) (ty : BifItemType) : List BifItem :=
  l ++ [{ id := name, type := ty }]

/-- Opaque address of a borrowed `Event*`. -/
structure EventRef where
  addr : ℕ
  deriving DecidableEq, Repr

/-- Opaque address of a borrowed `Func*`. -/
structure FuncRef where
  addr : ℕ
  deriving DecidableEq, Repr

/-- Opaque address of a borrowed `Frame*`. -/
structure FrameRef where
  addr : ℕ
  deriving DecidableEq, Repr

/-- Opaque address of a borrowed `Val*`. -/
structure ValRef where
  addr : ℕ
  deriving DecidableEq, Repr

/-- Opaque address of a borrowed `val_list*`. -/
structure ValListRef where
  addr : ℕ
  deriving DecidableEq, Repr

/-- Opaque address of a raw `void*`. -/
structure VoidPtrRef where
  addr : ℕ
  deriving DecidableEq, Repr

/-- Mirror of `enum HookArgument::Type`. -/
inductive HookArgType where
  | BOOL
  | DOUBLE
  | EVENT
  | FRAME
  | FUNC
  | FUNC_RESULT
  | INT
  | STRING
  | VAL
  | VAL_LIST
  | VOID
  | VOIDP
  deriving DecidableEq, Repr

/-- Mirror of the anonymous union inside `HookArgument`; `uninit` stands for
the union when no member has been written (default, STRING and FUNC_RESULT
constructors leave it untouched). -/
inductive ArgUnion where
  | bool_ (b : Bool)
  | double_ (d : ℚ)
  | event (e : EventRef)
  | func (f : FuncRef)
  | frame (f : FrameRef)
  | int_ (n : ℤ)
  | val (v : ValRef)
  | vals (v : ValListRef)
  | voidp (p : VoidPtrRef)
  | uninit
  deriving DecidableEq, Repr

/-- Reading the `bool_` member of the union; reading a member other than the
one last written is undefined, modelled as `none`. -/
def ArgUnion.getBool : ArgUnion → Option Bool
  | .bool_ b => some b
  | _ => none

/-- Reading the `double_` member of the union. -/
def ArgUnion.getDouble : ArgUnion → Option ℚ
  | .double_ d => some d
  | _ => none

/-- Reading the `event` member of the union. -/
def ArgUnion.getEvent : ArgUnion → Option EventRef
  | .event e => some e
  | _ => none

/-- Reading the `func` member of the union. -/
def ArgUnion.getFunc : ArgUnion → Option FuncRef
  | .func f => some f
  | _ => none

/-- Reading the `frame` member of the union. -/
def ArgUnion.getFrame : ArgUnion → Option FrameRef
  | .frame f => some f
  | _ => none

/-- Reading the `int_` member of the union. -/
def ArgUnion.getInt : ArgUnion → Option ℤ
  | .int_ n => some n
  | _ => none

/-- Reading the `val` member of the union. -/
def ArgUnion.getVal : ArgUnion → Option ValRef
  | .val v => some v
  | _ => none

/-- Reading the `vals` member of the union. -/
def ArgUnion.getVals : ArgUnion → Option ValListRef
  | .vals v => some v
  | _ => none

/-- Reading the `voidp` member of the union. -/
def ArgUnion.getVoidp : ArgUnion → Option VoidPtrRef
  | .voidp p => some p
  | _ => none

/-- Mirror of `class HookArgument`: the tag, the union, and the two members
kept outside the union because they have destructors (`func_result` and
`arg_string`). -/
structure HookArgument where
  type : HookArgType
  arg : ArgUnion
  func_result : Bool × ValRef
  arg_string : String
  deriving DecidableEq, Repr

/-- The default-constructed `std::pair<bool, Val*>` member: value-initialized
to `(false, nullptr)`; the null pointer is address 0. -/
def defaultFuncResult : Bool × ValRef := (false, { addr := 0 })

/-- The C++ default constructor `HookArgument()`: sets `type = VOID` and
leaves the union uninitialized. -/
def HookArgument.mkVoid : HookArgument :=
  { type := .VOID, arg := .uninit, func_result := defaultFuncResult, arg_string := "" }

/-- Mirror of `HookArgument(bool a)`. -/
def HookArgument.ofBool (a : Bool) : HookArgument :=
  { type := .BOOL, arg := .bool_ a, func_result := defaultFuncResult, arg_string := "" }

/-- Mirror of `HookArgument(double a)`. -/
def HookArgument.ofDouble (a : ℚ) : HookArgument :=
  { type := .DOUBLE, arg := .double_ a, func_result := defaultFuncResult, arg_string := "" }

/-- Mirror of `HookArgument(const Event* a)`. -/
def HookArgument.ofEvent (a : EventRef) : HookArgument :=
  { type := .EVENT, arg := .event a, func_result := defaultFuncResult, arg_string := "" }

/-- Mirror of `HookArgument(const Func* a)`. -/
def HookArgument.ofFunc (a : FuncRef) : HookArgument :=
  { type := .FUNC, arg := .func a, func_result := defaultFuncResult, arg_string := "" }

/-- Mirror of `HookArgument(int a)`. -/
def HookArgument.ofInt (a : ℤ) : HookArgument :=
  { type := .INT, arg := .int_ a, func_result := defaultFuncResult, arg_string := "" }

/-- Mirror of `HookArgument(const std::string& a)`: only `arg_string` is
written, the union stays uninitialized. -/
def HookArgument.ofString (a : String) : HookArgument :=
  { type := .STRING, arg := .uninit, func_result := defaultFuncResult, arg_string := a }

/-- Mirror of `HookArgument(const Val* a)`. -/
def HookArgument.ofVal (a : ValRef) : HookArgument :=
  { type := .VAL, arg := .val a, func_result := defaultFuncResult, arg_string := "" }

/-- Mirror of `HookArgument(const val_list* a)`. -/
def HookArgument.ofValList (a : ValListRef) : HookArgument :=
  { type := .VAL_LIST, arg := .vals a, func_result := defaultFuncResult, arg_string := "" }

/-- Mirror of `HookArgument(void* p)`. -/
def HookArgument.ofVoidPtr (p : VoidPtrRef) : HookArgument :=
  { type := .VOIDP, arg := .voidp p, func_result := defaultFuncResult, arg_string := "" }

/-- Mirror of `HookArgument(std::pair<bool, Val*> fresult)`: only
`func_result` is written, the union stays uninitialized. -/
def HookArgument.ofFuncResult (fresult : Bool × ValRef) : HookArgument :=
  { type := .FUNC_RESULT, arg := .uninit, func_result := fresult, arg_string := "" }

/-- Mirror of `HookArgument(Frame* f)`. -/
def HookArgument.ofFrame (f : FrameRef) : HookArgument :=
  { type := .FRAME, arg := .frame f, func_result := defaultFuncResult, arg_string := "" }

/-- Rounding of an integer to the nearest IEEE754 binary64 value, as performed
by the C `int -> double` conversion.  Integers of magnitude up to `2 ^ 53` are
exactly representable and convert unchanged; beyond that the value is rounded
to the nearest multiple of the unit in the last place (ties rounded away from
zero here, while IEEE rounds ties to even; the difference only affects
magnitudes above `2 ^ 53`, far outside the range of a 32-bit `int`). -/
def roundIntToDouble (n : ℤ) : ℤ :=
  if n.natAbs ≤ 2 ^ 53 then n
  else
    n.sign * ((2 ^ (n.natAbs.log2 - 52) *
      ((n.natAbs + 2 ^ (n.natAbs.log2 - 53)) / 2 ^ (n.natAbs.log2 - 52)) : ℕ) : ℤ)

/-- The C `int -> double` conversion as a map into the double model. -/
def intToDouble (n : ℤ) : ℚ := (roundIntToDouble n : ℚ)

/-- Mirror of `HookArgument::GetType`. -/
def HookArgument.GetType (a : HookArgument) : HookArgType := a.type

/-- Mirror of `bool AsBool() const { assert(type == BOOL); return arg.bool_; }`.
A failed assert is the `none` outcome. -/
def HookArgument.AsBool (a : HookArgument) : Option Bool :=
  if a.type = .BOOL then a.arg.getBool else none

/-- Mirror of `double AsDouble() const`. -/
def HookArgument.AsDouble (a : HookArgument) : Option ℚ :=
  if a.type = .DOUBLE then a.arg.getDouble else none

/-- Mirror of `const Event* AsEvent() const`. -/
def HookArgument.AsEvent (a : HookArgument) : Option EventRef :=
  if a.type = .EVENT then a.arg.getEvent else none

/-- Mirror of `const Func* AsFunc() const`. -/
def HookArgument.AsFunc (a : HookArgument) : Option FuncRef :=
  if a.type = .FUNC then a.arg.getFunc else none

/-- Mirror of `double AsInt() const { assert(type == INT); return arg.int_; }`:
note the C++ return type is `double`, so the stored `int` payload is implicitly
converted on return. -/
def HookArgument.AsInt (a : HookArgument) : Option ℚ :=
  if a.type = .INT then (a.arg.getInt).map intToDouble else none

/-- Mirror of `const std::string& AsString() const`. -/
def HookArgument.AsString (a : HookArgument) : Option String :=
  if a.type = .STRING then some a.arg_string else none

/-- Mirror of `const Val* AsVal() const`. -/
def HookArgument.AsVal (a : HookArgument) : Option ValRef :=
  if a.type = .VAL then a.arg.getVal else none

/-- Mirror of `const std::pair<bool, Val*> AsFuncResult() const`. -/
def HookArgument.AsFuncResult (a : HookArgument) : Option (Bool × ValRef) :=
  if a.type = .FUNC_RESULT then some a.func_result else none

/-- Mirror of `const Frame* AsFrame() const`. -/
def HookArgument.AsFrame (a : HookArgument) : Option FrameRef :=
  if a.type = .FRAME then a.arg.getFrame else none

/-- Mirror of `const val_list* AsValList() const`. -/
def HookArgument.AsValList (a : HookArgument) : Option ValListRef :=
  if a.type = .VAL_LIST then a.arg.getVals else none

/-- Mirror of `const void* AsVoidPtr() const`. -/
def HookArgument.AsVoidPtr (a : HookArgument) : Option VoidPtrRef :=
  if a.type = .VOIDP then a.arg.getVoidp else none

/-- Modelled from the spec: `Plugin::EnableHook`'s body (shared registry
mutation, `Plugin.cc`/manager) is not in the tree.  Per the spec a plugin
registers at most one priority per hook and re-enabling replaces the stored
priority, so enabling updates the existing entry for the hook when present and
appends a fresh entry otherwise. -/
def enableHook : List (HookType × ℤ) → HookType → ℤ → List (HookType × ℤ)
  | [], h, p => [(h, p)]
  | (h2, p2) :: rest, h, p =>
    if h2 = h then (h, p) :: rest else (h2, p2) :: enableHook rest h p

/-- Modelled from the spec: `Plugin::DisableHook` removes this plugin's entry
for the hook from the registry. -/
def disableHook (l : List (HookType × ℤ)) (h : HookType) : List (HookType × ℤ) :=
  l.filter (fun e => decide (e.1 ≠ h))

/-- Modelled from the spec: the slice of a plugin visible to the dispatcher of
one first-responder-wins hook: an identity and a hook method that returns
`some r` for a definitive (claiming) result and `none` when not interested. -/
structure PluginModel (α β : Type) where
  pid : ℕ
  respond : α → Option β

/-- Observable events of one dispatch pass: the meta-hook-pre phase, an
invocation of one plugin's hook method, and the meta-hook-post phase carrying
the final result (`none` is the default/void result). -/
inductive DispatchEv (β : Type) where
  | metaPre (h : HookType)
  | invoke (pid : ℕ)
  | metaPost (h : HookType) (result : Option β)
  deriving DecidableEq

/-- Insertion of one registration into a descending-priority list: it goes in
front of the first entry of strictly smaller priority (per the spec, ties are
unordered; this model keeps earlier entries first). -/
def insertByPriority {α β : Type} (x : PluginModel α β × ℤ) :
    List (PluginModel α β × ℤ) → List (PluginModel α β × ℤ)
  | [] => [x]
  | y :: ys => if y.2 < x.2 then x :: y :: ys else y :: insertByPriority x ys

/-- Modelled from the spec: the registry lookup returns the plugins enabled
for a hook ordered by descending priority. -/
def sortByPriorityDesc {α β : Type} :
    List (PluginModel α β × ℤ) → List (PluginModel α β × ℤ)
  | [] => []
  | x :: xs => insertByPriority x (sortByPriorityDesc xs)

/-- Modelled from the spec: the first-responder walk over the ordered plugin
list — call each hook method in turn until one returns a claiming result;
yields the invocation events and the final result. -/
def runFirstResponder {α β : Type} (inp : α) :
    List (PluginModel α β × ℤ) → List (DispatchEv β) × Option β
  | [] => ([], none)
  | (p, _) :: rest =>
    match p.respond inp with
    | some b => ([DispatchEv.invoke p.pid], some b)
    | none =>
      let r := runFirstResponder inp rest
      (DispatchEv.invoke p.pid :: r.1, r.2)

/-- Modelled from the spec: a full dispatch pass of a first-responder-wins
hook (`LoadFile`, `CallFunction`, `QueueEvent`): the meta-pre phase, the
priority-ordered walk until a claiming result, then the meta-post phase with
the final result (`none`, the default, when no plugin claimed). -/
def dispatchFirstResponder {α β : Type} (h : HookType)
    (regs : List (PluginModel α β × ℤ)) (inp : α) : List (DispatchEv β) :=
  let r := runFirstResponder inp (sortByPriorityDesc regs)
  DispatchEv.metaPre h :: r.1 ++ [DispatchEv.metaPost h r.2]

/-- Modelled from the spec: a full dispatch pass of a broadcast hook
(`DrainEvents`, `UpdateNetworkTime`, `ObjDestroy`): meta-pre, every enabled
plugin's method with no early exit, then meta-post with a void result. -/
def dispatchBroadcast {α β : Type} (h : HookType)
    (regs : List (PluginModel α β × ℤ)) (inp : α) : List (DispatchEv β) :=
  DispatchEv.metaPre h ::
    (sortByPriorityDesc regs).map (fun pr => DispatchEv.invoke pr.1.pid) ++
    [DispatchEv.metaPost h (none : Option β)]

/-- The plugin ids whose hook method was invoked during a dispatch pass, in
invocation order. -/
def invocations {β : Type} (t : List (DispatchEv β)) : List ℕ :=
  t.filterMap fun e =>
    match e with
    | .invoke p => some p
    | _ => none

/-- Integers in the range of a 32-bit `int` are below the `2 ^ 53` exactness
threshold of binary64, so the conversion rounds nothing away. -/
theorem roundIntToDouble_int32 (n : ℤ) (h1 : -(2 ^ 31) ≤ n) (h2 : n < 2 ^ 31) :
    roundIntToDouble n = n := by
  have hp : n.natAbs ≤ 2 ^ 53 := by
    have e1 : (2 : ℤ) ^ 31 = 2147483648 := by norm_num
    have e2 : (2 : ℕ) ^ 53 = 9007199254740992 := by norm_num
    omega
  unfold roundIntToDouble
  rw [if_pos hp]

/-- The `int -> double` conversion is the identity embedding on the 32-bit
`int` range. -/
theorem intToDouble_int32 (n : ℤ) (h1 : -(2 ^ 31) ≤ n) (h2 : n < 2 ^ 31) :
    intToDouble n = (n : ℚ) := by
  rw [intToDouble, roundIntToDouble_int32 n h1 h2]

/-- Entries whose hook is absent from the key list never pass the key filter. -/
theorem filter_key_eq_nil_of_not_mem (l : List (HookType × ℤ)) (k : HookType)
    (h : k ∉ l.map Prod.fst) :
    l.filter (fun e => decide (e.1 = k)) = [] := by
  induction l with
  | nil => rfl
  | cons x rest ih =>
    simp only [List.map_cons, List.mem_cons, not_or] at h
    rw [List.filter_cons_of_neg]
    · exact ih h.2
    · simp [Ne.symm h.1]

/-- Every hook key appearing after `enableHook` is either the enabled hook or
a key that was already present. -/
theorem mem_fst_enableHook (l : List (HookType × ℤ)) (k : HookType) (p : ℤ)
    (x : HookType) (hx : x ∈ (enableHook l k p).map Prod.fst) :
    x = k ∨ x ∈ l.map Prod.fst := by
  induction l with
  | nil => simpa [enableHook] using hx
  | cons y rest ih =>
    obtain ⟨h2, p2⟩ := y
    simp only [enableHook] at hx
    by_cases hk : h2 = k
    · subst hk
      rw [if_pos rfl] at hx
      simp only [List.map_cons, List.mem_cons] at hx ⊢
      tauto
    · rw [if_neg hk] at hx
      simp only [List.map_cons, List.mem_cons] at hx ⊢
      rcases hx with h | h
      · exact Or.inr (Or.inl h)
      · rcases ih h with h3 | h3
        · exact Or.inl h3
        · exact Or.inr (Or.inr h3)

/-- `enableHook` keeps the hook keys duplicate-free. -/
theorem nodup_fst_enableHook (l : List (HookType × ℤ)) (k : HookType) (p : ℤ)
    (hnd : (l.map Prod.fst).Nodup) :
    ((enableHook l k p).map Prod.fst).Nodup := by
  induction l with
  | nil => simp [enableHook]
  | cons y rest ih =>
    obtain ⟨h2, p2⟩ := y
    simp only [List.map_cons, List.nodup_cons] at hnd
    simp only [enableHook]
    by_cases hk : h2 = k
    · subst hk
      rw [if_pos rfl]
      simp only [List.map_cons, List.nodup_cons]
      exact ⟨hnd.1, hnd.2⟩
    · rw [if_neg hk]
      simp only [List.map_cons, List.nodup_cons]
      refine ⟨fun hmem => ?_, ih hnd.2⟩
      rcases mem_fst_enableHook rest k p h2 hmem with h | h
      · exact hk h
      · exact hnd.1 h

/-- With duplicate-free keys, `enableHook` leaves exactly one entry for the
enabled hook, carrying the new priority. -/
theorem enableHook_filter_eq (l : List (HookType × ℤ)) (k : HookType) (p : ℤ)
    (hnd : (l.map Prod.fst).Nodup) :
    (enableHook l k p).filter (fun e => decide (e.1 = k)) = [(k, p)] := by
  induction l with
  | nil => simp [enableHook]
  | cons y rest ih =>
    obtain ⟨h2, p2⟩ := y
    simp only [List.map_cons, List.nodup_cons] at hnd
    simp only [enableHook]
    by_cases hk : h2 = k
    · subst hk
      rw [if_pos rfl, List.filter_cons_of_pos (by simp),
        filter_key_eq_nil_of_not_mem rest h2 hnd.1]
    · rw [if_neg hk, List.filter_cons_of_neg (by simp [hk])]
      exact ih hnd.2

/-- After `disableHook` no entry for the disabled hook remains. -/
theorem disableHook_filter_eq_nil (l : List (HookType × ℤ)) (k : HookType) :
    (disableHook l k).filter (fun e => decide (e.1 = k)) = [] := by
  induction l with
  | nil => rfl
  | cons x rest ih =>
    simp only [disableHook] at ih ⊢
    by_cases hk : x.1 = k
    · rw [List.filter_cons_of_neg (by simp [hk])]
      exact ih
    · rw [List.filter_cons_of_pos (by simp [hk]),
        List.filter_cons_of_neg (by simp [hk])]
      exact ih

/-- `disableHook` keeps the hook keys duplicate-free. -/
theorem nodup_fst_disableHook (l : List (HookType × ℤ)) (k : HookType)
    (hnd : (l.map Prod.fst).Nodup) :
    ((disableHook l k).map Prod.fst).Nodup :=
  hnd.sublist ((List.filter_sublist l).map Prod.fst)

/-- Claim C1: each accessor `AsX` of a `HookArgument` is defined only when the
argument's tag equals `X`; under any other tag the accessor hits its failed
assertion (the `none` outcome), never a silently-wrong value.  In particular,
reading an argument constructed from an int payload through `AsBool` is such
a fault. -/
theorem hookArgument_accessor_tag_guard :
    (∀ a : HookArgument,
      (a.GetType ≠ .BOOL → a.AsBool = none) ∧
      (a.GetType ≠ .DOUBLE → a.AsDouble = none) ∧
      (a.GetType ≠ .EVENT → a.AsEvent = none) ∧
      (a.GetType ≠ .FUNC → a.AsFunc = none) ∧
      (a.GetType ≠ .INT → a.AsInt = none) ∧
      (a.GetType ≠ .STRING → a.AsString = none) ∧
      (a.GetType ≠ .VAL → a.AsVal = none) ∧
      (a.GetType ≠ .FUNC_RESULT → a.AsFuncResult = none) ∧
      (a.GetType ≠ .FRAME → a.AsFrame = none) ∧
      (a.GetType ≠ .VAL_LIST → a.AsValList = none) ∧
      (a.GetType ≠ .VOIDP → a.AsVoidPtr = none)) ∧
    (∀ n : ℤ, (HookArgument.ofInt n).AsBool = none) := by
  constructor
  · intro a
    refine ⟨?_, ?_, ?_, ?_, ?_, ?_, ?_, ?_, ?_, ?_, ?_⟩ <;>
      · intro h
        simp only [HookArgument.GetType] at h
        simp [HookArgument.AsBool, HookArgument.AsDouble, HookArgument.AsEvent,
          HookArgument.AsFunc, HookArgument.AsInt, HookArgument.AsString,
          HookArgument.AsVal, HookArgument.AsFuncResult, HookArgument.AsFrame,
          HookArgument.AsValList, HookArgument.AsVoidPtr, h]
  · intro n
    rfl

/-- Claim C1 witness: the guard applied to the concrete argument built from
the int payload `7`, read through the boolean accessor. -/
theorem hookArgument_accessor_tag_guard_witness :
    (HookArgument.ofInt 7).AsBool = none :=
  (hookArgument_accessor_tag_guard.1 (HookArgument.ofInt 7)).1 (by decide)

/-- Claim C5: construct-then-access round trip — for every payload of each
variant case, the constructed argument's `GetType` is that case's tag and the
matching accessor returns the payload unchanged (for the int case the value
comes back through the `int -> double` conversion, which is exact on the
32-bit `int` range). -/
theorem hookArgument_roundtrip :
    (∀ b : Bool, (HookArgument.ofBool b).GetType = .BOOL ∧
      (HookArgument.ofBool b).AsBool = some b) ∧
    (∀ d : ℚ, (HookArgument.ofDouble d).GetType = .DOUBLE ∧
      (HookArgument.ofDouble d).AsDouble = some d) ∧
    (∀ e : EventRef, (HookArgument.ofEvent e).GetType = .EVENT ∧
      (HookArgument.ofEvent e).AsEvent = some e) ∧
    (∀ f : FuncRef, (HookArgument.ofFunc f).GetType = .FUNC ∧
      (HookArgument.ofFunc f).AsFunc = some f) ∧
    (∀ n : ℤ, -(2 ^ 31) ≤ n → n < 2 ^ 31 →
      (HookArgument.ofInt n).GetType = .INT ∧
      (HookArgument.ofInt n).AsInt = some (n : ℚ)) ∧
    (∀ s : String, (HookArgument.ofString s).GetType = .STRING ∧
      (HookArgument.ofString s).AsString = some s) ∧
    (∀ v : ValRef, (HookArgument.ofVal v).GetType = .VAL ∧
      (HookArgument.ofVal v).AsVal = some v) ∧
    (∀ vl : ValListRef, (HookArgument.ofValList vl).GetType = .VAL_LIST ∧
      (HookArgument.ofValList vl).AsValList = some vl) ∧
    (∀ p : VoidPtrRef, (HookArgument.ofVoidPtr p).GetType = .VOIDP ∧
      (HookArgument.ofVoidPtr p).AsVoidPtr = some p) ∧
    (∀ fr : Bool × ValRef, (HookArgument.ofFuncResult fr).GetType = .FUNC_RESULT ∧
      (HookArgument.ofFuncResult fr).AsFuncResult = some fr) ∧
    (∀ f : FrameRef, (HookArgument.ofFrame f).GetType = .FRAME ∧
      (HookArgument.ofFrame f).AsFrame = some f) := by
  refine ⟨fun b => ⟨rfl, rfl⟩, fun d => ⟨rfl, rfl⟩, fun e => ⟨rfl, rfl⟩,
    fun f => ⟨rfl, rfl⟩, fun n h1 h2 => ⟨rfl, ?_⟩, fun s => ⟨rfl, rfl⟩,
    fun v => ⟨rfl, rfl⟩, fun vl => ⟨rfl, rfl⟩, fun p => ⟨rfl, rfl⟩,
    fun fr => ⟨rfl, rfl⟩, fun f => ⟨rfl, rfl⟩⟩
  have h3 := intToDouble_int32 n h1 h2
  simp [HookArgument.AsInt, HookArgument.ofInt, ArgUnion.getInt, h3]

/-- Claim C5 witness: the round trip for the int payload `5`. -/
theorem hookArgument_roundtrip_witness :
    (HookArgument.ofInt 5).GetType = .INT ∧
    (HookArgument.ofInt 5).AsInt = some ((5 : ℤ) : ℚ) :=
  hookArgument_roundtrip.2.2.2.2.1 5 (by decide) (by decide)

/-- Claim C8: `AsInt` is declared to return `double`, so under the `INT`-tag
precondition it returns the stored int payload converted to a double; this
conversion is value-preserving on the whole 32-bit `int` range, so `AsInt`
still recovers the constructed value. -/
theorem asInt_returns_double (n : ℤ) (h1 : -(2 ^ 31) ≤ n) (h2 : n < 2 ^ 31) :
    (HookArgument.ofInt n).AsInt = some (intToDouble n) ∧
    intToDouble n = (n : ℚ) :=
  ⟨rfl, intToDouble_int32 n h1 h2⟩

/-- Claim C8 witness: the conversion at the concrete int payload `1000000`. -/
theorem asInt_returns_double_witness :
    (HookArgument.ofInt 1000000).AsInt = some (intToDouble 1000000) ∧
    intToDouble 1000000 = ((1000000 : ℤ) : ℚ) :=
  asInt_returns_double 1000000 (by decide) (by decide)

/-- Claim C9: a default-constructed `HookArgument` has tag `VOID` and carries
no payload — every payload accessor is outside its precondition and faults. -/
theorem hookArgument_default_void :
    HookArgument.mkVoid.GetType = .VOID ∧
    HookArgument.mkVoid.AsBool = none ∧
    HookArgument.mkVoid.AsDouble = none ∧
    HookArgument.mkVoid.AsEvent = none ∧
    HookArgument.mkVoid.AsFunc = none ∧
    HookArgument.mkVoid.AsInt = none ∧
    HookArgument.mkVoid.AsString = none ∧
    HookArgument.mkVoid.AsVal = none ∧
    HookArgument.mkVoid.AsFuncResult = none ∧
    HookArgument.mkVoid.AsFrame = none ∧
    HookArgument.mkVoid.AsValList = none ∧
    HookArgument.mkVoid.AsVoidPtr = none :=
  ⟨rfl, rfl, rfl, rfl, rfl, rfl, rfl, rfl, rfl, rfl, rfl, rfl⟩

/-- Claim C7 counterexample: the version `{ major := 0, minor := -1 }` is
unset (its boolean conversion is `false`) although its components are not
both negative, so "unset exactly when both major and minor are negative" does
not hold of the code. -/
theorem versionNumber_unset_counterexample :
    VersionNumber.toBool { major := 0, minor := -1 } = false ∧
    ¬ (({ major := 0, minor := -1 } : VersionNumber).major < 0 ∧
       ({ major := 0, minor := -1 } : VersionNumber).minor < 0) := by
  decide

/-- Claim C7 (amended): the default constructor yields `major = minor = -1`;
the boolean conversion is `true` exactly when both components are
non-negative, hence a version is unset exactly when at least one component is
negative. -/
theorem versionNumber_set_iff :
    defaultVersionNumber.major = -1 ∧ defaultVersionNumber.minor = -1 ∧
    (∀ v : VersionNumber, v.toBool = true ↔ (0 ≤ v.major ∧ 0 ≤ v.minor)) ∧
    (∀ v : VersionNumber, v.toBool = false ↔ (v.major < 0 ∨ v.minor < 0)) := by
  refine ⟨rfl, rfl, fun v => ?_, fun v => ?_⟩ <;>
    simp [VersionNumber.toBool] <;> omega

/-- Claim C10: every `Configuration` is constructed with empty name and
description (the mandatory-name requirement is not enforced at construction)
and with `api_version` already stamped to the compiling host's
`BRO_PLUGIN_API_VERSION`, which is `3`; none of the public field operations
ever changes `api_version`. -/
theorem configuration_ctor_api_version :
    mkConfiguration.name = "" ∧
    mkConfiguration.description = "" ∧
    mkConfiguration.api_version = BRO_PLUGIN_API_VERSION ∧
    BRO_PLUGIN_API_VERSION = 3 ∧
    ∀ (c : Configuration) (s : String) (v : VersionNumber),
      (c.setName s).api_version = c.api_version ∧
      (c.setDescription s).api_version = c.api_version ∧
      (c.setVersion v).api_version = c.api_version :=
  ⟨rfl, rfl, rfl, rfl, fun c s v => ⟨rfl, rfl, rfl⟩⟩

/-- Claim C6: adding the same BiF id/kind pair twice appends two entries to
the declared-items list — the list is append-only with no implicit
de-duplication. -/
theorem addBifItem_no_dedup :
    ∀ l : List BifItem,
      addBifItem (addBifItem l "x::y" .FUNCTION) "x::y" .FUNCTION
        = l ++ [{ id := "x::y", type := .FUNCTION },
                { id := "x::y", type := .FUNCTION }] ∧
      (addBifItem (addBifItem l "x::y" .FUNCTION) "x::y" .FUNCTION).countP
          (fun b => decide (b = { id := "x::y", type := .FUNCTION }))
        = l.countP (fun b => decide (b = { id := "x::y", type := .FUNCTION })) + 2 := by
  intro l
  refine ⟨by simp [addBifItem], ?_⟩
  simp [addBifItem, List.countP_append, List.countP_cons]

/-- Claim C4: with duplicate-free hook keys, `EnableHook(H, p)` leaves exactly
one entry for `H`, with priority `p`; a subsequent `EnableHook(H, p2)`
replaces that entry (still exactly one, now with `p2`); `DisableHook(H)`
removes it; and each of these operations preserves the no-two-entries-per-hook
invariant. -/
theorem enableHook_single_entry
    (l : List (HookType × ℤ)) (k : HookType) (p p2 : ℤ)
    (hnd : (l.map Prod.fst).Nodup) :
    (enableHook l k p).filter (fun e => decide (e.1 = k)) = [(k, p)] ∧
    (enableHook (enableHook l k p) k p2).filter (fun e => decide (e.1 = k))
      = [(k, p2)] ∧
    (disableHook (enableHook (enableHook l k p) k p2) k).filter
        (fun e => decide (e.1 = k)) = [] ∧
    ((enableHook l k p).map Prod.fst).Nodup ∧
    ((enableHook (enableHook l k p) k p2).map Prod.fst).Nodup ∧
    ((disableHook (enableHook (enableHook l k p) k p2) k).map Prod.fst).Nodup := by
  have nd1 := nodup_fst_enableHook l k p hnd
  have nd2 := nodup_fst_enableHook (enableHook l k p) k p2 nd1
  exact ⟨enableHook_filter_eq l k p hnd,
    enableHook_filter_eq _ k p2 nd1,
    disableHook_filter_eq_nil _ k,
    nd1, nd2, nodup_fst_disableHook _ k nd2⟩

/-- Claim C4 witness: the enable/re-enable/disable sequence on the empty hook
list for `HOOK_LOAD_FILE` with priorities `10` then `5`. -/
theorem enableHook_single_entry_witness :
    (enableHook [] .HOOK_LOAD_FILE 10).filter
        (fun e => decide (e.1 = HookType.HOOK_LOAD_FILE))
      = [(HookType.HOOK_LOAD_FILE, 10)] ∧
    (enableHook (enableHook [] .HOOK_LOAD_FILE 10) .HOOK_LOAD_FILE 5).filter
        (fun e => decide (e.1 = HookType.HOOK_LOAD_FILE))
      = [(HookType.HOOK_LOAD_FILE, 5)] ∧
    (disableHook (enableHook (enableHook [] .HOOK_LOAD_FILE 10)
          .HOOK_LOAD_FILE 5) .HOOK_LOAD_FILE).filter
        (fun e => decide (e.1 = HookType.HOOK_LOAD_FILE)) = [] ∧
    ((enableHook [] .HOOK_LOAD_FILE 10).map Prod.fst).Nodup ∧
    ((enableHook (enableHook [] .HOOK_LOAD_FILE 10) .HOOK_LOAD_FILE 5).map
        Prod.fst).Nodup ∧
    ((disableHook (enableHook (enableHook [] .HOOK_LOAD_FILE 10)
          .HOOK_LOAD_FILE 5) .HOOK_LOAD_FILE).map Prod.fst).Nodup :=
  enableHook_single_entry [] .HOOK_LOAD_FILE 10 5 (by decide)

/-- Claim C2: on a first-responder-wins hook, with plugins `P1` and `P2`
registered at priorities `10` and `5` in either order, the dispatcher invokes
`P1`'s hook method first, and when `P1` returns a claiming result, `P2`'s
method is never invoked in that dispatch pass. -/
theorem dispatch_priority_first_responder {α β : Type} (h : HookType)
    (P1 P2 : PluginModel α β) (inp : α) (regs : List (PluginModel α β × ℤ))
    (hregs : regs = [(P1, 10), (P2, 5)] ∨ regs = [(P2, 5), (P1, 10)])
    (hpid : P1.pid ≠ P2.pid) :
    invocations (dispatchFirstResponder h regs inp)
      = (if (P1.respond inp).isSome then [P1.pid] else [P1.pid, P2.pid]) ∧
    ((P1.respond inp).isSome →
      DispatchEv.invoke P2.pid ∉ dispatchFirstResponder h regs inp) := by
  have hsort : sortByPriorityDesc regs = [(P1, 10), (P2, 5)] := by
    rcases hregs with rfl | rfl <;>
      norm_num [sortByPriorityDesc, insertByPriority]
  cases hr : P1.respond inp with
  | some b =>
    constructor
    · simp [dispatchFirstResponder, hsort, runFirstResponder, hr, invocations]
    · intro _
      simp [dispatchFirstResponder, hsort, runFirstResponder, hr,
        List.mem_cons, Ne.symm hpid]
  | none =>
    refine ⟨?_, fun hcontra => by simp [hr] at hcontra⟩
    cases hr2 : P2.respond inp <;>
      simp [dispatchFirstResponder, hsort, runFirstResponder, hr, hr2,
        invocations]

/-- Claim C2 witness: two concrete plugins on `HOOK_CALL_FUNCTION`, the
higher-priority one claiming, registered in priority order. -/
theorem dispatch_priority_first_responder_witness :
    invocations (dispatchFirstResponder HookType.HOOK_CALL_FUNCTION
        [(({ pid := 1, respond := fun _ => some 42 } : PluginModel Unit ℕ), 10),
         (({ pid := 2, respond := fun _ => none } : PluginModel Unit ℕ), 5)] ())
      = (if (({ pid := 1, respond := fun _ => some 42 } :
              PluginModel Unit ℕ).respond ()).isSome
          then [({ pid := 1, respond := fun _ => some 42 } :
                  PluginModel Unit ℕ).pid]
          else [({ pid := 1, respond := fun _ => some 42 } :
                  PluginModel Unit ℕ).pid,
                ({ pid := 2, respond := fun _ => none } :
                  PluginModel Unit ℕ).pid]) ∧
    ((({ pid := 1, respond := fun _ => some 42 } :
          PluginModel Unit ℕ).respond ()).isSome →
      DispatchEv.invoke ({ pid := 2, respond := fun _ => none } :
          PluginModel Unit ℕ).pid ∉
        dispatchFirstResponder HookType.HOOK_CALL_FUNCTION
          [(({ pid := 1, respond := fun _ => some 42 } : PluginModel Unit ℕ), 10),
           (({ pid := 2, respond := fun _ => none } : PluginModel Unit ℕ), 5)] ()) :=
  dispatch_priority_first_responder HookType.HOOK_CALL_FUNCTION
    { pid := 1, respond := fun _ => some 42 }
    { pid := 2, respond := fun _ => none }
    () _ (Or.inl rfl) (by decide)

/-- Claim C3: for every hook type and every occurrence of its extension
point, even with no plugin enabled for the hook, a dispatch pass performs the
meta-hook-pre and meta-hook-post phases exactly once each, the post phase
carrying the default/void result. -/
theorem meta_hooks_fire_without_plugins {α β : Type} (h : HookType) (inp : α) :
    dispatchFirstResponder (β := β) h [] inp
        = [DispatchEv.metaPre h, DispatchEv.metaPost h none] ∧
    dispatchBroadcast (β := β) h [] inp
        = [DispatchEv.metaPre h, DispatchEv.metaPost h none] :=
  ⟨rfl, rfl⟩

end ZeekPlugin
